import Mathlib

/-!
Verification of the QUIC packet header protector
(`iocore/net/quic/QUICPacketHeaderProtector.cc`).

The wire packet is embedded as a list of natural-number bytes.  The header
parsers (`QUICPacket.h` accessors), the key-schedule facade
(`QUICHandshakeProtocol`) and the cryptographic primitives (`_generate_mask`,
`_encrypt_pn`) live outside the translated file; they are modelled from the
specification, as documented on each definition, and the crypto primitives are
taken as opaque function parameters.  Machine arithmetic is made explicit: the
`uint8_t` store in `_calc_sample_offset` is reduced modulo 256 and the `size_t`
subtraction wraps modulo 2^64.
-/

namespace QUICHP

/-- A wire packet: a contiguous byte buffer, one natural number per byte. -/
abbrev Packet := List Nat

/-- First byte of the buffer (the flags byte). -/
def byte0 (p : Packet) : Nat := p.getD 0 0

/-- Modelled from the spec: `QUICInvariants::is_long_header` (header parser,
not under src/) — classifies the header form by the invariant form bit, the
most significant bit of byte 0, which masking never touches. -/
def is_long_header (p : Packet) : Bool := (byte0 p &&& 0x80) != 0

/-- Modelled from the spec: `QUICPacketLongHeader::version` (header parser,
not under src/) — the 4-byte big-endian version field right after the 1-byte
flags field. -/
def version (p : Packet) : Nat :=
  (p.getD 1 0) * 0x1000000 + (p.getD 2 0) * 0x10000 + (p.getD 3 0) * 0x100 + p.getD 4 0

/-- Modelled from the spec: the long-header packet-type bits of byte 0;
type 0 is Initial, the token-bearing long header type. -/
def long_type (p : Packet) : Nat := (byte0 p >>> 4) &&& 0x3

/-- Whether a long-header packet is an Initial packet. -/
def isInitial (p : Packet) : Bool := long_type p == 0

/-- Modelled from the spec: `QUICPacketLongHeader::dcil` (header parser, not
under src/) — the destination connection-ID length of a long header. -/
def dcil (p : Packet) : Nat := p.getD 5 0

/-- Modelled from the spec: `QUICPacketLongHeader::scil` (header parser, not
under src/) — the source connection-ID length, read after the DCID bytes. -/
def scil (p : Packet) : Nat := p.getD (6 + dcil p) 0

/-- Width in bytes of a QUIC variable-length integer, decoded from the top
two bits of its first byte: 1, 2, 4 or 8. -/
def varintLen (b : Nat) : Nat := 2 ^ (b >>> 6)

/-- Value of a QUIC variable-length integer read at offset `off`. -/
def varintVal (p : Packet) (off : Nat) : Nat :=
  (List.range (varintLen (p.getD off 0) - 1)).foldl
    (fun acc i => acc * 256 + p.getD (off + 1 + i) 0)
    (p.getD off 0 &&& 0x3f)

/-- Modelled from the spec: offset of the token-length field of an Initial
packet — 1-byte flags, 4-byte version, DCID length byte, DCID bytes, SCID
length byte, SCID bytes. -/
def tokenFieldOffset (p : Packet) : Nat := 7 + dcil p + scil p

/-- Modelled from the spec: the width reported by
`QUICPacketLongHeader::token_length` (header parser, not under src/) — the
token-length field is a variable-length integer, so at least one byte wide. -/
def token_length_len (p : Packet) : Nat := varintLen (p.getD (tokenFieldOffset p) 0)

/-- Modelled from the spec: the token length value reported by
`QUICPacketLongHeader::token_length`. -/
def token_len (p : Packet) : Nat := varintVal p (tokenFieldOffset p)

/-- Modelled from the spec: offset of the long header's encoded length field,
after the token-length field and token bytes on Initial packets. -/
def lengthFieldOffset (p : Packet) : Nat :=
  tokenFieldOffset p + (if isInitial p then token_length_len p + token_len p else 0)

/-- Modelled from the spec: the width reported by
`QUICPacketLongHeader::length` (header parser, not under src/) — the length
field is a variable-length integer. -/
def length_len (p : Packet) : Nat := varintLen (p.getD (lengthFieldOffset p) 0)

/-- Modelled from the spec: `QUICPacketLongHeader::packet_number_offset`
(header parser, not under src/) — the packet number starts right after the
length field. -/
def pnOffsetLong (p : Packet) : Nat := lengthFieldOffset p + length_len p

/-- The `size_t` subtraction `a - b` of the source: 64-bit unsigned
arithmetic, wrapping modulo 2^64 (meaningful for `b ≤ 2^64`). -/
def sub64 (a b : Nat) : Nat := (a + (2 ^ 64 - b)) % 2 ^ 64

/-- Shallow embedding of `QUICPacketHeaderProtector::_calc_sample_offset`
(src lines 111-140).  The first component is the returned `bool`: the
`std::min` expression of line 139 converted to bool, in which the local
`pn_offset` is never assigned after its initialization to 0 and the `size_t`
subtraction wraps.  The second component is the value stored through the
`uint8_t *sample_offset` out-parameter (reduced mod 256); it is `none` when
the short-header branch leaves the out-parameter unwritten, which mirrors the
source exactly: that branch only reads the key phase. -/
def calc_sample_offset (p : Packet) (protected_packet_len : Nat) : Bool × Option Nat :=
  let pn_offset : Nat := 0
  let aead_expansion : Nat := 16
  let so : Option Nat :=
    if is_long_header p then
      let base : Nat := (6 + dcil p + scil p + length_len p + 4) % 256
      if isInitial p then some ((base + token_len p + token_length_len p) % 256)
      else some base
    else
      none
  ((Nat.min (pn_offset + 4) (sub64 protected_packet_len aead_expansion)) != 0, so)

/-- Key phases of the external key schedule (`QUICKeyPhase`, not under
src/): one per encryption level, with the two rotating 1-RTT phases. -/
inductive QUICKeyPhase
  | initial
  | zeroRTT
  | handshake
  | phase0
  | phase1
deriving DecidableEq

/-- Header-protection key material held by the external key schedule. -/
structure KeyMaterial where
  hp : List Nat
deriving DecidableEq

/-- Opaque header-protection cipher handle. -/
inductive QUIC_EVP_CIPHER
  | evpCipher
deriving DecidableEq

/-- The key/cipher lookup facade of the external handshake protocol object:
per-phase lookups that return `none` while keys are not yet installed. -/
structure HSProtocol where
  cipher_for_hp : QUICKeyPhase → Option QUIC_EVP_CIPHER
  key_material_for_encryption : QUICKeyPhase → Option KeyMaterial
  key_material_for_decryption : QUICKeyPhase → Option KeyMaterial

/-- Modelled from the spec: `QUICPacketLongHeader::key_phase` (header parser,
not under src/) — the key phase of a long-header packet follows its type. -/
def long_key_phase (p : Packet) : QUICKeyPhase :=
  match long_type p with
  | 0 => .initial
  | 1 => .zeroRTT
  | 2 => .handshake
  | _ => .initial

/-- Modelled from the spec: `QUICPacketShortHeader::key_phase` (header
parser, not under src/) — the rotating 1-RTT phase from the key-phase bit of
byte 0. -/
def short_key_phase (p : Packet) : QUICKeyPhase :=
  if (byte0 p &&& 0x04) != 0 then .phase1 else .phase0

/-- The key phase `unprotect` derives for a packet (src lines 61-69). -/
def phaseOf (p : Packet) : QUICKeyPhase :=
  if is_long_header p then long_key_phase p else short_key_phase p

/-- The flag-bit mask constant of the rewriter: `0x0f` for long headers,
`0x1f` for short headers (src lines 149 and 152). -/
def flagConst (p : Packet) : Nat := if is_long_header p then 0x0f else 0x1f

/-- The packet-number XOR loop of `_unprotect` (src lines 157-159): for `i`
in `0..n`, `packet[off + i] ^= mask[1 + i]`.  The C loop has no bounds
check; in this embedding a write past the end of the list is a no-op, and
the separate access-footprint function below records the indices the C code
touches regardless of the buffer length. -/
def xorLoop (p : Packet) (off n : Nat) (mask : List Nat) : Packet :=
  (List.range n).foldl
    (fun acc i => acc.set (off + i) (acc.getD (off + i) 0 ^^^ mask.getD (1 + i) 0)) p

/-- The buffer after the first XOR of `_unprotect` (src lines 148-154):
byte 0 is XORed with `mask[0] & 0x0f` for long headers and `mask[0] & 0x1f`
for short headers. -/
def rewriteMid (p : Packet) (mask : List Nat) : Packet :=
  p.set 0 (byte0 p ^^^ (mask.getD 0 0 &&& flagConst p))

/-- The packet-number offset `_unprotect` re-derives (src lines 150 and
153): long headers re-parse the partially unmasked packet; short headers use
1 byte of flags plus the statically configured connection-ID length
(`QUICConnectionId::SCID_LEN`, a parameter of this embedding). -/
def rewritePnOffset (scidLen : Nat) (p : Packet) (mask : List Nat) : Nat :=
  if is_long_header p then pnOffsetLong (rewriteMid p mask) else 1 + scidLen

/-- Modelled from the spec: `QUICTypeUtil::read_QUICPacketNumberLen` (not
under src/) — the packet-number length is 1 to 4 bytes, encoded as length
minus one in the low two bits of byte 0; `_unprotect` reads it from the
now-unmasked byte 0 (src line 155). -/
def rewritePnLength (p : Packet) (mask : List Nat) : Nat :=
  (byte0 (rewriteMid p mask) &&& 0x03) + 1

/-- Shallow embedding of `QUICPacketHeaderProtector::_unprotect` (src lines
142-162): unmask byte 0, re-derive the packet-number offset and length, then
run the packet-number XOR loop. -/
def unprotectRewrite (scidLen : Nat) (p : Packet) (mask : List Nat) : Packet :=
  xorLoop (rewriteMid p mask) (rewritePnOffset scidLen p mask) (rewritePnLength p mask) mask

/-- The byte indices `_unprotect` writes (and reads) in the buffer: byte 0,
then the `pn_length` packet-number bytes from `pn_offset` on, with no bounds
validation anywhere in the source. -/
def unprotectWriteIndices (scidLen : Nat) (p : Packet) (mask : List Nat) : List Nat :=
  0 :: (List.range (rewritePnLength p mask)).map (fun i => rewritePnOffset scidLen p mask + i)

/-- Shallow embedding of `QUICPacketHeaderProtector::unprotect` (src lines
49-103).  `genMask` stands for `_generate_mask` (external crypto), applied to
the header-protection key and the buffer suffix starting at the sample
offset; `uninit` stands for the value of the local `uint8_t sample_offset`
when `_calc_sample_offset` leaves it unwritten (the short-header path).
Returns the boolean result together with the final buffer. -/
def unprotect (hs : HSProtocol) (genMask : List Nat → List Nat → Option (List Nat))
    (scidLen uninit : Nat) (p : Packet) (len : Nat) : Bool × Packet :=
  if is_long_header p = true ∧ version p = 0 then (true, p)
  else
    match hs.cipher_for_hp (phaseOf p) with
    | none => (false, p)
    | some _ =>
      match hs.key_material_for_decryption (phaseOf p) with
      | none => (false, p)
      | some km =>
        match calc_sample_offset p len with
        | (false, _) => (false, p)
        | (true, so) =>
          match genMask km.hp (p.drop (so.getD uninit)) with
          | none => (false, p)
          | some mask => (true, unprotectRewrite scidLen p mask)

/-- Shallow embedding of `QUICPacketHeaderProtector::protect` (src lines
30-47).  `encryptPN` stands for `_encrypt_pn` (external crypto); it receives
the cipher lookup's result unchecked, exactly as the source passes `aead`
through.  The second component records whether `_encrypt_pn` was invoked. -/
def protect (hs : HSProtocol) (encryptPN : Option QUIC_EVP_CIPHER → KeyMaterial → Bool)
    (phase : QUICKeyPhase) : Bool × Bool :=
  let aead := hs.cipher_for_hp phase
  match hs.key_material_for_encryption phase with
  | none => (false, false)
  | some km => (encryptPN aead km, true)

/-- Modelled from the spec: the protect-direction rewriter (`apply_protect`,
the body of `_encrypt_pn`, not under src/) applied to the on-wire buffer —
XOR byte 0's protected bits (`0x0f` long / `0x1f` short) with `mask[0]`, and
the `pnLen` packet-number bytes at `pnOff` with `mask[1 + i]`. -/
def wireProtect (p : Packet) (pnOff pnLen : Nat) (mask : List Nat) : Packet :=
  xorLoop (p.set 0 (byte0 p ^^^ (mask.getD 0 0 &&& flagConst p))) pnOff pnLen mask

/-- Concrete 10-byte short-header buffer: too short for any sample window. -/
def c1pkt : Packet := 0x40 :: List.replicate 9 0

/-- Concrete 3-byte short-header buffer used to exhibit the missing bounds
validation of `_unprotect`. -/
def c2pkt : Packet := [0x40, 0, 0]

/-- An all-zero mask block. -/
def c2mask : List Nat := [0, 0, 0, 0, 0]

/-- A key schedule with an encryption key installed but no header-protection
cipher for any phase. -/
def hsC3 : HSProtocol :=
  ⟨fun _ => none, fun _ => some ⟨[0]⟩, fun _ => none⟩

/-- An `_encrypt_pn` stand-in that reports success whatever cipher argument
it is handed. -/
def encTrue : Option QUIC_EVP_CIPHER → KeyMaterial → Bool := fun _ _ => true

/-- Concrete 26-byte short-header buffer. -/
def c4pkt : Packet := 0x43 :: List.replicate 25 0

/-- Concrete version-negotiation packet: long header form bit set, 4-byte
version field all zero. -/
def c5pkt : Packet := [0x80, 0, 0, 0, 0]

/-- A key schedule with every per-phase lookup empty. -/
def hsNone : HSProtocol := ⟨fun _ => none, fun _ => none, fun _ => none⟩

/-- A mask generator that always fails. -/
def gmNone : List Nat → List Nat → Option (List Nat) := fun _ _ => none

/-- A key schedule with every per-phase lookup populated. -/
def hsAll : HSProtocol :=
  ⟨fun _ => some .evpCipher, fun _ => some ⟨[0]⟩, fun _ => some ⟨[0]⟩⟩

/-- A mask generator that always returns an all-zero mask block. -/
def gmZero : List Nat → List Nat → Option (List Nat) := fun _ _ => some [0, 0, 0, 0, 0]

/-- Concrete non-version-negotiation short-header packet. -/
def c6pkt : Packet := [0x40, 0, 0]

/-- Concrete version-negotiation packet used against the missing-keys
claim. -/
def c6vn : Packet := [0x80, 0, 0, 0, 0]

/-- A key schedule with an encryption key installed and no cipher, used to
instantiate the corrected protect contract. -/
def hsC3w : HSProtocol :=
  ⟨fun _ => none, fun _ => some ⟨[1]⟩, fun _ => none⟩

/-- Concrete long-header Initial packet: flags `0xC0`, version 1, DCID
length 8 with 8 DCID bytes, SCID length 0, 1-byte token-length field
encoding token length 0, then a 2-byte encoded length field. -/
def c7pkt : Packet :=
  [0xC0, 0x00, 0x00, 0x00, 0x01, 0x08, 1, 2, 3, 4, 5, 6, 7, 8, 0x00, 0x00, 0x40, 0x10,
   0xAA, 0xBB, 0xCC, 0xDD]

/-- Concrete 16-byte short-header packet with an 8-byte connection ID and a
4-byte packet number region. -/
def c8pkt : Packet := [0x41, 1, 2, 3, 4, 5, 6, 7, 8, 0x11, 0x22, 0x33, 0x44, 0, 0, 0]

/-- Concrete mask block for the rewriter scenario. -/
def c8mask : List Nat := [0x5E, 0x02, 0x03, 0x04, 0x05]

/-- Concrete 16-byte short-header packet whose byte 0 encodes a 3-byte
packet number. -/
def c9pkt : Packet := [0x42, 1, 2, 3, 4, 5, 6, 7, 8, 0xAA, 0xBB, 0xCD, 0, 0, 0, 0]

/-- Concrete mask block for the involution scenario. -/
def c9mask : List Nat := [0x7C, 0x11, 0x22, 0x33, 0x44]

/-- Concrete short-header buffer for the wrap-around scenario. -/
def c10pkt : Packet := [0x40, 0, 0, 0, 0, 0, 0, 0, 0, 0]

/-- Pointwise description of `List.set` under `getD`. -/
theorem getD_set_eq_ite (l : List Nat) (i j v : Nat) :
    (l.set i v).getD j 0 = if i = j ∧ j < l.length then v else l.getD j 0 := by
  induction l generalizing i j with
  | nil =>
    simp
  | cons a t ih =>
    cases i with
    | zero =>
      cases j with
      | zero => simp
      | succ j => simp [List.getD_cons_succ]
    | succ i =>
      cases j with
      | zero => simp [List.getD_cons_zero]
      | succ j =>
        simp only [List.set_cons_succ, List.getD_cons_succ, ih, List.length_cons]
        split_ifs with h1 h2 <;> first | rfl | omega

/-- Two lists of equal length that agree under `getD` at every index are
equal. -/
theorem eq_of_length_getD (l1 : List Nat) :
    ∀ l2 : List Nat, l1.length = l2.length → (∀ j, l1.getD j 0 = l2.getD j 0) → l1 = l2 := by
  induction l1 with
  | nil =>
    intro l2 h _
    cases l2 with
    | nil => rfl
    | cons b t => simp at h
  | cons a t ih =>
    intro l2 h hg
    cases l2 with
    | nil => simp at h
    | cons b t2 =>
      have h0 := hg 0
      simp only [List.getD_cons_zero] at h0
      have ht : t = t2 :=
        ih t2 (by simpa using h) (fun j => by simpa only [List.getD_cons_succ] using hg (j + 1))
      rw [h0, ht]

/-- Base case of the packet-number loop. -/
theorem xorLoop_zero (p : Packet) (off : Nat) (mask : List Nat) :
    xorLoop p off 0 mask = p := rfl

/-- Unfolding one iteration of the packet-number loop. -/
theorem xorLoop_succ (p : Packet) (off n : Nat) (mask : List Nat) :
    xorLoop p off (n + 1) mask =
      (xorLoop p off n mask).set (off + n)
        ((xorLoop p off n mask).getD (off + n) 0 ^^^ mask.getD (1 + n) 0) := by
  unfold xorLoop
  rw [List.range_succ, List.foldl_append, List.foldl_cons, List.foldl_nil]

/-- The packet-number loop preserves the buffer length. -/
theorem length_xorLoop (p : Packet) (off n : Nat) (mask : List Nat) :
    (xorLoop p off n mask).length = p.length := by
  induction n with
  | zero => rfl
  | succ n ih => rw [xorLoop_succ, List.length_set, ih]

/-- Pointwise description of the packet-number loop: the bytes at indices
`off ≤ j < off + n` inside the buffer are XORed with `mask[1 + (j - off)]`,
every other byte is unchanged. -/
theorem getD_xorLoop (p : Packet) (off : Nat) (mask : List Nat) :
    ∀ n j, (xorLoop p off n mask).getD j 0 =
      if off ≤ j ∧ j < off + n ∧ j < p.length
      then p.getD j 0 ^^^ mask.getD (1 + (j - off)) 0
      else p.getD j 0 := by
  intro n
  induction n with
  | zero =>
    intro j
    rw [xorLoop_zero, if_neg (by omega)]
  | succ n ih =>
    intro j
    rw [xorLoop_succ, getD_set_eq_ite, length_xorLoop]
    by_cases hj : off + n = j ∧ j < p.length
    · rcases hj with ⟨hj1, hj2⟩
      subst hj1
      rw [if_pos ⟨rfl, hj2⟩, ih, if_neg (by omega), if_pos (by omega),
        Nat.add_sub_cancel_left]
    · rw [if_neg hj, ih]
      by_cases hc : off ≤ j ∧ j < off + n ∧ j < p.length
      · rw [if_pos hc, if_pos (by omega)]
      · rw [if_neg hc, if_neg (by omega)]

/-- Running the packet-number loop twice with the same mask restores the
buffer: XOR with the same mask is self-inverting. -/
theorem xorLoop_xorLoop (p : Packet) (off n : Nat) (mask : List Nat) :
    xorLoop (xorLoop p off n mask) off n mask = p := by
  apply eq_of_length_getD
  · rw [length_xorLoop, length_xorLoop]
  · intro j
    rw [getD_xorLoop, length_xorLoop, getD_xorLoop]
    by_cases hc : off ≤ j ∧ j < off + n ∧ j < p.length
    · rw [if_pos hc, if_pos hc, Nat.xor_assoc, Nat.xor_self, Nat.xor_zero]
    · rw [if_neg hc, if_neg hc]

/-- Setting byte 0 commutes with a packet-number loop that starts at offset
1 or later. -/
theorem xorLoop_set_zero (p : Packet) (v off n : Nat) (mask : List Nat) (hoff : 1 ≤ off) :
    xorLoop (p.set 0 v) off n mask = (xorLoop p off n mask).set 0 v := by
  apply eq_of_length_getD
  · rw [length_xorLoop, List.length_set, List.length_set, length_xorLoop]
  · intro j
    simp only [getD_xorLoop, getD_set_eq_ite, length_xorLoop, List.length_set]
    split_ifs <;> first | rfl | omega

/-- Writing back its own byte 0 leaves a buffer unchanged. -/
theorem set0_byte0 (p : Packet) : p.set 0 (byte0 p) = p := by
  apply eq_of_length_getD
  · rw [List.length_set]
  · intro j
    rw [getD_set_eq_ite]
    split_ifs with h
    · rcases h with ⟨h1, _⟩
      rw [← h1]
      rfl
    · rfl

/-- Byte 0 survives a packet-number loop that starts at offset 1 or later. -/
theorem byte0_xorLoop (p : Packet) (off n : Nat) (mask : List Nat) (hoff : 1 ≤ off) :
    byte0 (xorLoop p off n mask) = byte0 p := by
  unfold byte0
  rw [getD_xorLoop, if_neg (by omega)]

/-- Byte 0 after overwriting it in a nonempty buffer. -/
theorem byte0_set0 (p : Packet) (v : Nat) (hp : 0 < p.length) :
    byte0 (p.set 0 v) = v := by
  unfold byte0
  rw [getD_set_eq_ite, if_pos ⟨rfl, hp⟩]

/-- XOR with a masked value below the form bit leaves `&&& 0x80` alone. -/
theorem and80_xor_and (x m c : Nat) (hc : c &&& 0x80 = 0) :
    (x ^^^ (m &&& c)) &&& 0x80 = x &&& 0x80 := by
  have h1 : (m &&& c) &&& 0x80 = 0 := by
    rw [Nat.and_assoc, hc, Nat.and_zero]
  rw [Nat.and_xor_distrib_right, h1, Nat.xor_zero]

/-- The flag-bit constants never touch the form bit. -/
theorem flagConst_and80 (p : Packet) : flagConst p &&& 0x80 = 0 := by
  unfold flagConst
  split <;> rfl

/-- The header form classification is invariant under masking byte 0's
protected flag bits. -/
theorem is_long_header_set0_xor (p : Packet) (m : Nat) (hp : 0 < p.length) :
    is_long_header (p.set 0 (byte0 p ^^^ (m &&& flagConst p))) = is_long_header p := by
  unfold is_long_header
  rw [byte0_set0 _ _ hp, and80_xor_and _ _ _ (flagConst_and80 p)]

/-- The long-header packet-number offset is always at least 1. -/
theorem one_le_pnOffsetLong (p : Packet) : 1 ≤ pnOffsetLong p := by
  have h : 1 ≤ 2 ^ ((p.getD (lengthFieldOffset p) 0) >>> 6) := Nat.one_le_two_pow
  unfold pnOffsetLong length_len varintLen
  omega

/-- The packet-number offset the rewriter derives is always at least 1. -/
theorem one_le_rewritePnOffset (scidLen : Nat) (p : Packet) (mask : List Nat) :
    1 ≤ rewritePnOffset scidLen p mask := by
  unfold rewritePnOffset
  split
  · exact one_le_pnOffsetLong _
  · omega

/-- C10: the geometry resolver's boolean result is the `std::min` expression
with `pn_offset` still 0 and the `size_t` subtraction wrapping modulo 2^64,
so for every buffer length below 2^64 it reports success exactly when the
length differs from 16 — in particular every length below 16 is accepted. -/
theorem calc_sample_offset_success_iff_len_ne_16 (p : Packet) (len : Nat)
    (hlen : len < 2 ^ 64) :
    (calc_sample_offset p len).1 = true ↔ len ≠ 16 := by
  have hmod : sub64 len 16 = 0 ↔ len = 16 := by
    unfold sub64
    omega
  simp only [calc_sample_offset, bne_iff_ne, ne_eq, Nat.min_eq_zero_iff]
  rw [hmod]
  omega

/-- Witness for C10 at a concrete 10-byte buffer. -/
theorem calc_sample_offset_success_iff_len_ne_16_witness :
    (10 : Nat) < 2 ^ 64 ∧ ((calc_sample_offset c10pkt 10).1 = true ↔ (10 : Nat) ≠ 16) :=
  ⟨by norm_num, calc_sample_offset_success_iff_len_ne_16 c10pkt 10 (by norm_num)⟩

/-- C1: evaluation at the failing input — a 10-byte buffer, for which the
claimed bound `offset + 16 ≤ 10 - 16` is unsatisfiable even at offset 0,
yet `_calc_sample_offset` reports success (the `std::min` clamp is returned
as the boolean instead of being stored, and the wrapped subtraction makes
every length other than exactly 16 succeed). -/
theorem calc_sample_offset_accepts_short_buffer :
    (calc_sample_offset c1pkt 10).1 = true := by decide

/-- C4: the short-header branch of `_calc_sample_offset` never stores a
sample offset: the out-parameter is left unwritten (the claimed
`1 + CID length + 4` value is never computed). -/
theorem calc_sample_offset_short_header_unset (p : Packet) (len : Nat)
    (h : is_long_header p = false) :
    (calc_sample_offset p len).2 = none := by
  simp [calc_sample_offset, h]

/-- Witness for C4 at a concrete short-header buffer. -/
theorem calc_sample_offset_short_header_unset_witness :
    is_long_header c4pkt = false ∧ (calc_sample_offset c4pkt 26).2 = none :=
  ⟨by decide, calc_sample_offset_short_header_unset c4pkt 26 (by decide)⟩

/-- C7 counterexample: for the Initial packet with DCID length 8, SCID
length 0, token length 0 and a 2-byte length field, the resolver does not
produce 20 — the 1-byte token-length field is also added. -/
theorem calc_sample_offset_initial_scenario_not_20 :
    (calc_sample_offset c7pkt 50).2 ≠ some 20 := by decide

/-- C7 (amended): for every long-header packet the resolver stores
`(6 + dcil + scil + length_len + 4) + (token_len + token_length_len when
Initial)` reduced mod 256, and on the Initial scenario with DCID 8, SCID 0,
token length 0 (1-byte token-length field) and a 2-byte length field it
produces 21, not 20. -/
theorem calc_sample_offset_long_header_formula (p : Packet) (len : Nat)
    (h : is_long_header p = true) :
    (calc_sample_offset p len).2 =
      some ((6 + dcil p + scil p + length_len p + 4 +
        (if isInitial p then token_len p + token_length_len p else 0)) % 256) ∧
    (calc_sample_offset c7pkt 50).2 = some 21 := by
  constructor
  · by_cases hI : isInitial p = true
    · simp only [calc_sample_offset, h, hI, if_true, Option.some.injEq]
      omega
    · simp only [Bool.not_eq_true] at hI
      simp only [calc_sample_offset, h, hI, if_true, Bool.false_eq_true, if_false,
        Option.some.injEq]
  · decide

/-- Witness for C7 at the concrete Initial packet. -/
theorem calc_sample_offset_long_header_formula_witness :
    is_long_header c7pkt = true ∧ (calc_sample_offset c7pkt 50).2 = some 21 :=
  ⟨by decide, (calc_sample_offset_long_header_formula c7pkt 50 (by decide)).2⟩

/-- C5: a long-header packet whose version field is 0 is passed through by
`unprotect`: success is reported and the buffer is returned untouched, for
every key schedule and mask generator (so key lookup and masking are
skipped). -/
theorem unprotect_version_negotiation_passthrough (hs : HSProtocol)
    (genMask : List Nat → List Nat → Option (List Nat)) (scidLen uninit : Nat)
    (p : Packet) (len : Nat) (h1 : is_long_header p = true) (h2 : version p = 0) :
    unprotect hs genMask scidLen uninit p len = (true, p) := by
  unfold unprotect
  rw [if_pos ⟨h1, h2⟩]

/-- Witness for C5 at a concrete version-negotiation packet with a fully
populated key schedule. -/
theorem unprotect_version_negotiation_passthrough_witness :
    is_long_header c5pkt = true ∧ version c5pkt = 0 ∧
      unprotect hsAll gmZero 18 0 c5pkt 5 = (true, c5pkt) :=
  ⟨by decide, by decide,
    unprotect_version_negotiation_passthrough hsAll gmZero 18 0 c5pkt 5 (by decide) (by decide)⟩

/-- C6 counterexample: a version-negotiation packet whose phase has no
installed keys at all still makes `unprotect` report success, not failure. -/
theorem unprotect_missing_keys_vn_counterexample :
    hsNone.cipher_for_hp (phaseOf c6vn) = none ∧
      (unprotect hsNone gmNone 18 0 c6vn 5).1 = true :=
  ⟨rfl, rfl⟩

/-- C6 (amended): for every packet other than a version-negotiation packet,
if the phase's cipher or decryption key material lookup is absent,
`unprotect` fails and returns the buffer byte-for-byte unchanged. -/
theorem unprotect_missing_keys_fails_unchanged (hs : HSProtocol)
    (genMask : List Nat → List Nat → Option (List Nat)) (scidLen uninit : Nat)
    (p : Packet) (len : Nat)
    (hvn : ¬(is_long_header p = true ∧ version p = 0))
    (hkeys : hs.cipher_for_hp (phaseOf p) = none ∨
      hs.key_material_for_decryption (phaseOf p) = none) :
    unprotect hs genMask scidLen uninit p len = (false, p) := by
  unfold unprotect
  rw [if_neg hvn]
  cases hc : hs.cipher_for_hp (phaseOf p) with
  | none => rfl
  | some c =>
    rcases hkeys with hk | hk
    · rw [hk] at hc
      exact Option.noConfusion hc
    · rw [hk]

/-- Witness for C6 at a concrete short-header packet with an empty key
schedule. -/
theorem unprotect_missing_keys_fails_unchanged_witness :
    ¬(is_long_header c6pkt = true ∧ version c6pkt = 0) ∧
      unprotect hsNone gmNone 18 0 c6pkt 3 = (false, c6pkt) :=
  ⟨by decide,
    unprotect_missing_keys_fails_unchanged hsNone gmNone 18 0 c6pkt 3 (by decide) (Or.inl rfl)⟩

/-- C3 counterexample: with no header-protection cipher installed but key
material present, `protect` does not fail immediately — it invokes
`_encrypt_pn` (second component `true`) and even reports success when the
crypto callback does. -/
theorem protect_ignores_missing_cipher :
    hsC3.cipher_for_hp .initial = none ∧ protect hsC3 encTrue .initial = (true, true) :=
  ⟨rfl, rfl⟩

/-- C3 (amended): `protect` treats only absent key material as an immediate
failure without invoking `_encrypt_pn`; an absent cipher is not checked and
is handed to `_encrypt_pn` whenever key material is present (unlike
`unprotect`, which checks the cipher lookup and fails immediately). -/
theorem protect_checks_only_key_material (hs : HSProtocol)
    (encryptPN : Option QUIC_EVP_CIPHER → KeyMaterial → Bool) (phase : QUICKeyPhase)
    (km : KeyMaterial) (_hc : hs.cipher_for_hp phase = none) :
    (hs.key_material_for_encryption phase = none →
      protect hs encryptPN phase = (false, false)) ∧
    (hs.key_material_for_encryption phase = some km →
      (protect hs encryptPN phase).2 = true) := by
  constructor
  · intro h
    simp [protect, h]
  · intro h
    simp [protect, h]

/-- Witness for C3's amended contract at a concrete key schedule. -/
theorem protect_checks_only_key_material_witness :
    hsC3w.cipher_for_hp .initial = none ∧ (protect hsC3w encTrue .initial).2 = true :=
  ⟨rfl, (protect_checks_only_key_material hsC3w encTrue .initial ⟨[1]⟩ rfl).2 rfl⟩

/-- C2: evaluation at the failing input — on a 3-byte short-header buffer
with connection-ID length 8, `_unprotect` XORs the byte at index 9, far past
the end of the buffer: no validation of `pn_offset + pn_len` against any
boundary exists before the write loop. -/
theorem unprotect_writes_past_buffer :
    9 ∈ unprotectWriteIndices 8 c2pkt c2mask ∧ c2pkt.length ≤ 9 := by decide

/-- C8: whenever the derived geometry fits the buffer, `_unprotect` XORs
byte 0 with `mask[0] & 0x0f` (long) or `mask[0] & 0x1f` (short), re-derives
a packet-number length between 1 and 4 from the low two bits of the
now-unmasked byte 0, XORs exactly those `pn_len` bytes starting at
`pn_offset` with `mask[1 + i]`, and leaves every other byte unchanged. -/
theorem unprotect_rewriter_effect (scidLen : Nat) (p : Packet) (mask : List Nat)
    (hp : 0 < p.length)
    (hbound : rewritePnOffset scidLen p mask + rewritePnLength p mask ≤ p.length) :
    (unprotectRewrite scidLen p mask).length = p.length ∧
    (unprotectRewrite scidLen p mask).getD 0 0 =
      byte0 p ^^^ (mask.getD 0 0 &&& (if is_long_header p then 0x0f else 0x1f)) ∧
    (1 ≤ rewritePnLength p mask ∧ rewritePnLength p mask ≤ 4) ∧
    rewritePnLength p mask = ((unprotectRewrite scidLen p mask).getD 0 0 &&& 0x03) + 1 ∧
    (∀ i, i < rewritePnLength p mask →
      (unprotectRewrite scidLen p mask).getD (rewritePnOffset scidLen p mask + i) 0 =
        p.getD (rewritePnOffset scidLen p mask + i) 0 ^^^ mask.getD (1 + i) 0) ∧
    (∀ j, j ≠ 0 →
      (j < rewritePnOffset scidLen p mask ∨
        rewritePnOffset scidLen p mask + rewritePnLength p mask ≤ j) →
      (unprotectRewrite scidLen p mask).getD j 0 = p.getD j 0) := by
  have hoff := one_le_rewritePnOffset scidLen p mask
  have hmidlen : (rewriteMid p mask).length = p.length := by
    unfold rewriteMid
    rw [List.length_set]
  have hmid0 : byte0 (rewriteMid p mask) = byte0 p ^^^ (mask.getD 0 0 &&& flagConst p) := by
    unfold rewriteMid
    exact byte0_set0 _ _ hp
  have hmidj : ∀ j, j ≠ 0 → (rewriteMid p mask).getD j 0 = p.getD j 0 := by
    intro j hj
    unfold rewriteMid
    rw [getD_set_eq_ite, if_neg (by omega)]
  have hout0 : (unprotectRewrite scidLen p mask).getD 0 0 = byte0 (rewriteMid p mask) := by
    unfold unprotectRewrite
    rw [getD_xorLoop, if_neg (by omega)]
    rfl
  refine ⟨?_, ?_, ⟨?_, ?_⟩, ?_, ?_, ?_⟩
  · unfold unprotectRewrite
    rw [length_xorLoop, hmidlen]
  · rw [hout0, hmid0]
    rfl
  · unfold rewritePnLength
    omega
  · have h3 : byte0 (rewriteMid p mask) &&& 3 ≤ 3 := Nat.and_le_right
    unfold rewritePnLength
    omega
  · rw [hout0]
    rfl
  · intro i hi
    unfold unprotectRewrite
    rw [getD_xorLoop, hmidlen, if_pos (by omega), hmidj _ (by omega), Nat.add_sub_cancel_left]
  · intro j hj hrange
    unfold unprotectRewrite
    rw [getD_xorLoop, if_neg (by omega)]
    exact hmidj j hj

/-- Witness for C8 at a concrete short-header packet and mask. -/
theorem unprotect_rewriter_effect_witness :
    0 < c8pkt.length ∧
    rewritePnOffset 8 c8pkt c8mask + rewritePnLength c8pkt c8mask ≤ c8pkt.length ∧
    (unprotectRewrite 8 c8pkt c8mask).getD 0 0 =
      byte0 c8pkt ^^^ (c8mask.getD 0 0 &&& (if is_long_header c8pkt then 0x0f else 0x1f)) :=
  ⟨by decide, by decide, (unprotect_rewriter_effect 8 c8pkt c8mask (by decide) (by decide)).2.1⟩

/-- C9: for a valid unprotected packet (packet-number length encoded in the
low two bits of byte 0, packet-number offset agreeing with the one the
rewriter re-derives), masking byte 0's protected bits and the packet-number
bytes with a mask and then running `_unprotect` with the same mask restores
the original buffer exactly: XOR with the same mask is self-inverting. -/
theorem protect_unprotect_involution (scidLen : Nat) (p : Packet) (mask : List Nat)
    (pnOff pnLen : Nat) (hp : 0 < p.length) (hoff1 : 1 ≤ pnOff)
    (hlen : pnLen = (byte0 p &&& 0x03) + 1)
    (hoff : pnOff = if is_long_header p
      then pnOffsetLong (xorLoop p pnOff pnLen mask) else 1 + scidLen) :
    unprotectRewrite scidLen (wireProtect p pnOff pnLen mask) mask = p := by
  have hw : wireProtect p pnOff pnLen mask =
      xorLoop (p.set 0 (byte0 p ^^^ (mask.getD 0 0 &&& flagConst p))) pnOff pnLen mask := rfl
  have w0 : byte0 (wireProtect p pnOff pnLen mask) =
      byte0 p ^^^ (mask.getD 0 0 &&& flagConst p) := by
    rw [hw, byte0_xorLoop _ _ _ _ hoff1, byte0_set0 _ _ hp]
  have hLH : is_long_header (wireProtect p pnOff pnLen mask) = is_long_header p := by
    unfold is_long_header
    rw [w0, and80_xor_and _ _ _ (flagConst_and80 p)]
  have hFC : flagConst (wireProtect p pnOff pnLen mask) = flagConst p := by
    unfold flagConst
    rw [hLH]
  have hx : byte0 (wireProtect p pnOff pnLen mask) ^^^ (mask.getD 0 0 &&& flagConst p) =
      byte0 p := by
    rw [w0, Nat.xor_assoc, Nat.xor_self, Nat.xor_zero]
  have hmid : rewriteMid (wireProtect p pnOff pnLen mask) mask = xorLoop p pnOff pnLen mask := by
    unfold rewriteMid
    rw [hFC, hx, hw, ← xorLoop_set_zero _ _ _ _ _ hoff1, List.set_set, set0_byte0]
  have hpnlen : rewritePnLength (wireProtect p pnOff pnLen mask) mask = pnLen := by
    unfold rewritePnLength
    rw [hmid, byte0_xorLoop _ _ _ _ hoff1]
    exact hlen.symm
  have hpnoff : rewritePnOffset scidLen (wireProtect p pnOff pnLen mask) mask = pnOff := by
    unfold rewritePnOffset
    rw [hLH, hmid]
    exact hoff.symm
  unfold unprotectRewrite
  rw [hmid, hpnoff, hpnlen, xorLoop_xorLoop]

/-- Witness for C9 at a concrete short-header packet and mask. -/
theorem protect_unprotect_involution_witness :
    0 < c9pkt.length ∧
      unprotectRewrite 8 (wireProtect c9pkt 9 3 c9mask) c9mask = c9pkt :=
  ⟨by decide,
    protect_unprotect_involution 8 c9pkt c9mask 9 3 (by decide) (by decide) (by decide)
      (by decide)⟩

end QUICHP
